import Mathlib

/-!
Verification development for the LEAPS options screener core.

The definitions below are a shallow embedding of the repository's
`OptionsDataService` (options-chain synthesis and pricing heuristics) and
`LeapsAnalyzer` (strategy eligibility and liquidity classification).
JavaScript numbers are modelled as real numbers (`ℝ`) where the source uses
transcendental functions (`Math.exp`, `Math.sqrt`, `Math.log`), and as
rationals (`ℚ`) in the purely arithmetic chain layer so that concrete
evaluations are decidable.  The uncontrolled `Math.random()` draws are
modelled as explicitly injected sample parameters.
-/

namespace LEAPS

/-- Option side: the `type` argument of `generateOptionData` (`'call'` or
`'put'`). -/
inductive OptionType
  | call
  | put
deriving DecidableEq

/-- Abramowitz–Stegun error-function approximation, embedding `erf(x)` from
the source (coefficients `a1..a5`, `p = 0.3275911`, sign correction for
negative inputs). -/
noncomputable def erf (x : ℝ) : ℝ :=
  let a1 : ℝ := 0.254829592
  let a2 : ℝ := -0.284496736
  let a3 : ℝ := 1.421413741
  let a4 : ℝ := -1.453152027
  let a5 : ℝ := 1.061405429
  let p : ℝ := 0.3275911
  let s : ℝ := if 0 ≤ x then 1 else -1
  let ax : ℝ := |x|
  let t : ℝ := 1 / (1 + p * ax)
  let y : ℝ :=
    1 - ((((a5 * t + a4) * t + a3) * t + a2) * t + a1) * t * Real.exp (-(ax * ax))
  s * y

/-- Embedding of `normalCDF(x) = 0.5 * (1 + erf(x / sqrt 2))` from the source. -/
noncomputable def normalCDF (x : ℝ) : ℝ :=
  0.5 * (1 + erf (x / Real.sqrt 2))

/-- Embedding of `calculateTimeValue(moneyness, timeToExpiry, volatility)` from the
source: `(0.4 * sqrt(T) * vol * 100) * exp(-|moneyness - 1| * 2)`. -/
noncomputable def calculateTimeValue (moneyness timeToExpiry volatility : ℝ) : ℝ :=
  let atm : ℝ := |moneyness - 1|
  let timeFactor : ℝ := Real.sqrt timeToExpiry
  let volFactor : ℝ := volatility
  (0.4 * timeFactor * volFactor * 100) * Real.exp (-(atm * 2))

/-- Embedding of `calculateDelta(type, moneyness, timeToExpiry, volatility)` from the
source: `d1 = (ln(1/m) + 0.5 σ² T) / (σ √T)`, call delta `normalCDF d1`,
put delta `normalCDF d1 - 1`. -/
noncomputable def calculateDelta
    (type : OptionType) (moneyness timeToExpiry volatility : ℝ) : ℝ :=
  let d1 : ℝ :=
    (Real.log (1 / moneyness) + 0.5 * volatility * volatility * timeToExpiry) /
      (volatility * Real.sqrt timeToExpiry)
  let delta : ℝ := normalCDF d1
  match type with
  | .call => delta
  | .put => delta - 1

/-- Embedding of `calculateTheta(timeValue, daysToExpiry)` from the source:
`-timeValue / daysToExpiry`. -/
noncomputable def calculateTheta (timeValue daysToExpiry : ℝ) : ℝ :=
  -timeValue / daysToExpiry

/-- Embedding of `calculateGamma(moneyness, timeToExpiry, volatility)` from the source. -/
noncomputable def calculateGamma (moneyness timeToExpiry volatility : ℝ) : ℝ :=
  Real.exp (-(Real.log moneyness) ^ 2 / 2) /
    (volatility * Real.sqrt (timeToExpiry * 2 * Real.pi))

/-- Embedding of `calculateVega(timeToExpiry, volatility) = sqrt(T) * 0.1` from the
source. -/
noncomputable def calculateVega (timeToExpiry volatility : ℝ) : ℝ :=
  Real.sqrt timeToExpiry * 0.1

/-- Embedding of `calculateAnnualizedReturn(optionPrice, stockPrice, timeToExpiry)` from
the source: `(1 / (price / stock) - 1) / T`. -/
noncomputable def calculateAnnualizedReturn
    (optionPrice stockPrice timeToExpiry : ℝ) : ℝ :=
  let costBasis : ℝ := optionPrice / stockPrice
  (1 / costBasis - 1) / timeToExpiry

/-- The option-quote record produced by `generateOptionData`.  The JS
`maxGain` field is the string `'unlimited'` for calls and a number for
puts; it is modelled as an `Option ℝ` with `none` standing for
`'unlimited'`. -/
structure OptionQuote where
  bid : ℝ
  ask : ℝ
  midPrice : ℝ
  volume : ℤ
  openInterest : ℤ
  impliedVolatility : ℝ
  delta : ℝ
  gamma : ℝ
  theta : ℝ
  vega : ℝ
  intrinsicValue : ℝ
  timeValue : ℝ
  moneyness : String
  annualizedReturn : ℝ
  breakeven : ℝ
  maxLoss : ℝ
  maxGain : Option ℝ

/-- Embedding of `generateOptionData(type, strike, spotPrice, daysToExpiry)` from the
source.  The four `Math.random()` draws are injected as `r1` (implied
volatility: `vol = 0.25 + r1 * 0.3`), `r2` (spread fraction:
`spread = price * (0.02 + r2 * 0.03)`), `r3` (volume) and `r4` (open
interest). -/
noncomputable def generateOptionData
    (type : OptionType) (strike spotPrice daysToExpiry r1 r2 r3 r4 : ℝ) :
    OptionQuote :=
  let timeToExpiry : ℝ := daysToExpiry / 365
  let volatility : ℝ := 0.25 + r1 * 0.3
  let moneyness : ℝ := strike / spotPrice
  let intrinsic : ℝ :=
    match type with
    | .call => max (spotPrice - strike) 0
    | .put => max (strike - spotPrice) 0
  let timeValue : ℝ := calculateTimeValue moneyness timeToExpiry volatility
  let price : ℝ := intrinsic + timeValue
  let delta : ℝ := calculateDelta type moneyness timeToExpiry volatility
  let theta : ℝ := calculateTheta timeValue daysToExpiry
  let gamma : ℝ := calculateGamma moneyness timeToExpiry volatility
  let vega : ℝ := calculateVega timeToExpiry volatility
  let spread : ℝ := price * (0.02 + r2 * 0.03)
  { bid := max (price - spread / 2) 0.05
    ask := price + spread / 2
    midPrice := price
    volume := ⌊r3 * 1000 + 10⌋
    openInterest := ⌊r4 * 10000 + 100⌋
    impliedVolatility := volatility
    delta := |delta|
    gamma := gamma
    theta := theta
    vega := vega
    intrinsicValue := intrinsic
    timeValue := timeValue
    moneyness := if 1 < moneyness then "OTM" else if moneyness < 0.95 then "ITM" else "ATM"
    annualizedReturn := calculateAnnualizedReturn price spotPrice timeToExpiry
    breakeven := match type with | .call => strike + price | .put => strike - price
    maxLoss := price
    maxGain := match type with | .call => none | .put => some (strike - price) }

/-- Embedding of `getStrikeInterval(price)` from the source: price-tier interval
selection. -/
def getStrikeInterval (price : ℚ) : ℚ :=
  if price < 25 then 2.5
  else if price < 50 then 5
  else if price < 200 then 10
  else if price < 500 then 25
  else 50

/-- Embedding of `generateStrikePrices(currentPrice)` from the source: strikes stepping
by the tier interval from `floor(price*0.5/interval)*interval` while
`strike <= ceil(price*2.0/interval)*interval`, keeping only positive
strikes, truncated to the first 30. -/
def generateStrikePrices (currentPrice : ℚ) : List ℚ :=
  let interval : ℚ := getStrikeInterval currentPrice
  let lo : ℤ := ⌊currentPrice * 0.5 / interval⌋
  let hi : ℤ := ⌈currentPrice * 2.0 / interval⌉
  ((((List.range (hi - lo + 1).toNat).map
      (fun (k : ℕ) => ((lo + (k : ℤ) : ℤ) : ℚ) * interval)).filter
    (fun strike => 0 < strike)).take 30)

/-- Embedding of `findAtmStrike(strikes, currentPrice)` from the source: a JS `reduce`
with no initial accumulator, keeping `curr` only when strictly closer to
the spot.  `reduce` on an empty array throws, modelled by `none`. -/
def findAtmStrike (strikes : List ℚ) (currentPrice : ℚ) : Option ℚ :=
  match strikes with
  | [] => none
  | first :: rest =>
      some (rest.foldl
        (fun prev curr =>
          if |curr - currentPrice| < |prev - currentPrice| then curr else prev)
        first)

/-- One `{strike, call, put}` row of an options chain, as built by
`generateLeapsChain`. -/
structure ChainRow where
  strike : ℚ
  call : OptionQuote
  put : OptionQuote

/-- The chain record returned by `generateLeapsChain` (the ISO expiration
string is modelled by the expiration timestamp itself, in milliseconds). -/
structure OptionsChain where
  expiration : ℚ
  daysToExpiry : ℤ
  totalStrikes : ℕ
  atmStrike : ℚ
  options : List ChainRow

/-- The four random draws consumed by one `generateOptionData` call. -/
structure RandSample where
  iv : ℝ
  sp : ℝ
  vo : ℝ
  oi : ℝ

/-- Embedding of `generateLeapsChain(ticker, expiration, rawData)` from the source.
`now` and `expiration` are timestamps in milliseconds; `rawSpot` is
`rawData.quote.regularMarketPrice` when present, with `fallbackSpot` the
random fallback price; `sampler` injects the random draws of each
`generateOptionData` call.  The JS code throws (via `reduce` on an empty
ladder) when no strike is generated, modelled by `none`; otherwise it
unconditionally returns a chain record, with no validation of
`daysToExpiry`. -/
noncomputable def generateLeapsChain
    (now expiration : ℚ) (rawSpot : Option ℚ) (fallbackSpot : ℚ)
    (sampler : ℚ → OptionType → RandSample) : Option OptionsChain :=
  let currentPrice : ℚ := rawSpot.getD fallbackSpot
  let daysToExpiry : ℤ := ⌈(expiration - now) / (1000 * 60 * 60 * 24)⌉
  let strikes : List ℚ := generateStrikePrices currentPrice
  match findAtmStrike strikes currentPrice with
  | none => none
  | some atm =>
      some
        { expiration := expiration
          daysToExpiry := daysToExpiry
          totalStrikes := strikes.length
          atmStrike := atm
          options := strikes.map (fun strike =>
            { strike := strike
              call :=
                let s := sampler strike .call
                generateOptionData .call (strike : ℝ) (currentPrice : ℝ)
                  ((daysToExpiry : ℤ) : ℝ) s.iv s.sp s.vo s.oi
              put :=
                let s := sampler strike .put
                generateOptionData .put (strike : ℝ) (currentPrice : ℝ)
                  ((daysToExpiry : ℤ) : ℝ) s.iv s.sp s.vo s.oi }) }

/-- The two upstream blob shapes distinguished by `processOptionsData`:
Yahoo (date-keyed, epoch seconds) and Polygon (array of contracts with an
ISO `expiration_date`, modelled by its timestamp since lexicographic order
on ISO date strings is chronological order); anything else selects no
expiration. -/
inductive RawOptionsData
  | yahoo (expirationSeconds : List ℤ)
  | polygon (contractExpirations : List ℤ)
  | other

/-- First-occurrence de-duplication, the behaviour of `[...new Set(xs)]`
in the source. -/
def jsDedup (l : List ℤ) : List ℤ :=
  l.foldl (fun acc x => if x ∈ acc then acc else acc ++ [x]) []

/-- The expiration-selection step of `processOptionsData(ticker, rawData)`
from the source: the LEAPS threshold is `now + 9*30*24*60*60*1000` ms; the
Yahoo branch maps epoch seconds to ms, filters strictly past the
threshold, sorts ascending and takes 4; the Polygon branch filters,
de-duplicates, sorts and takes 4.  Timestamps are in milliseconds. -/
def selectLeapsExpirations (now : ℤ) (rawData : RawOptionsData) : List ℤ :=
  let leapsThreshold : ℤ := now + 9 * 30 * 24 * 60 * 60 * 1000
  match rawData with
  | .yahoo exps =>
      ((((exps.map (fun e => e * 1000)).filter
          (fun d => leapsThreshold < d)).insertionSort (· ≤ ·)).take 4)
  | .polygon contracts =>
      (((jsDedup (contracts.filter
          (fun d => leapsThreshold < d))).insertionSort (· ≤ ·)).take 4)
  | .other => []

/-- The result of `analyzeProtectivePut`, reduced to the field the claims
are about; the narrative fields of the JS object do not interact with any
analysed property. -/
structure PPResult where
  viable : Bool
deriving DecidableEq

/-- Embedding of `analyzeProtectivePut(stockData, optionsData)` from the source
(`currentPrice = stockData.close`).  `chains[0]` on an empty chain list is
`undefined` and the subsequent field access throws, modelled by `none`.
The put selector is `opt.put.delta <= -0.10 && opt.put.delta >= -0.20 &&
opt.strike < currentPrice * 0.9`. -/
noncomputable def analyzeProtectivePut
    (currentPrice : ℚ) (chains : List OptionsChain) : Option PPResult :=
  match chains with
  | [] => none
  | chain :: _ =>
      match chain.options.find? (fun opt =>
          decide (opt.put.delta ≤ -0.10) && decide (-0.20 ≤ opt.put.delta) &&
            decide (opt.strike < currentPrice * 0.9)) with
      | none => some { viable := false }
      | some protectivePut =>
          let insuranceCost : ℝ :=
            protectivePut.put.midPrice / (currentPrice : ℝ) * 100
          let protection : ℝ :=
            ((currentPrice : ℝ) - (protectivePut.strike : ℝ)) / (currentPrice : ℝ) * 100
          some { viable := decide (insuranceCost < 8) && decide (10 < protection) }

/-- Embedding of `assessOptionsLiquidity(optionsData)` from the source: `'Poor'` on an
empty chain list, otherwise the mean over chains of each chain's
`sum(call.volume + put.volume) / (options.length * 2)`, classified by the
`>100 / >50 / >20` thresholds. -/
def assessOptionsLiquidity (chains : List OptionsChain) : String :=
  if chains.length = 0 then "Poor"
  else
    let avgVolume : ℚ :=
      (chains.foldl (fun sum chain =>
        sum +
          (chain.options.foldl
              (fun s opt => s + ((opt.call.volume : ℚ) + (opt.put.volume : ℚ))) 0) /
            ((chain.options.length : ℚ) * 2)) 0) / (chains.length : ℚ)
    if 100 < avgVolume then "Excellent"
    else if 50 < avgVolume then "Good"
    else if 20 < avgVolume then "Fair"
    else "Poor"

/-- Modelled from the claim's words, for comparison with
`assessOptionsLiquidity`: the mean of `(call.volume + put.volume) / 2`
taken across all strike rows of all chains, every strike row weighted
equally, classified by the same thresholds. -/
def claimFlatMeanLiquidity (chains : List OptionsChain) : String :=
  if chains.length = 0 then "Poor"
  else
    let rows : List ChainRow := chains.flatMap (fun chain => chain.options)
    let avgVolume : ℚ :=
      (rows.map (fun opt => ((opt.call.volume : ℚ) + (opt.put.volume : ℚ)) / 2)).sum /
        (rows.length : ℚ)
    if 100 < avgVolume then "Excellent"
    else if 50 < avgVolume then "Good"
    else if 20 < avgVolume then "Fair"
    else "Poor"

/-- The amended description of `assessOptionsLiquidity`: the mean over
chains of each chain's mean of `(call.volume + put.volume) / 2` across its
strike rows (chains weighted equally, not strike rows), with the same
thresholds. -/
def chainMeanLiquidity (chains : List OptionsChain) : String :=
  if chains.length = 0 then "Poor"
  else
    let avgVolume : ℚ :=
      (chains.map (fun chain =>
        (chain.options.map
            (fun opt => ((opt.call.volume : ℚ) + (opt.put.volume : ℚ)) / 2)).sum /
          (chain.options.length : ℚ))).sum / (chains.length : ℚ)
    if 100 < avgVolume then "Excellent"
    else if 50 < avgVolume then "Good"
    else if 20 < avgVolume then "Fair"
    else "Poor"

/-- A quote record carrying only the trading volume that
`assessOptionsLiquidity` reads; all other fields are inert. -/
noncomputable def volQuote (v : ℤ) : OptionQuote :=
  { bid := 0, ask := 0, midPrice := 0, volume := v, openInterest := 0,
    impliedVolatility := 0, delta := 0, gamma := 0, theta := 0, vega := 0,
    intrinsicValue := 0, timeValue := 0, moneyness := "ATM",
    annualizedReturn := 0, breakeven := 0, maxLoss := 0, maxGain := none }

/-- A one-strike chain whose single row carries combined volume 400. -/
noncomputable def liqChain1 : OptionsChain :=
  { expiration := 0, daysToExpiry := 365, totalStrikes := 1, atmStrike := 50,
    options := [⟨50, volQuote 400, volQuote 0⟩] }

/-- A three-strike chain whose rows each carry combined volume 20. -/
noncomputable def liqChain2 : OptionsChain :=
  { expiration := 0, daysToExpiry := 365, totalStrikes := 3, atmStrike := 60,
    options := [⟨50, volQuote 20, volQuote 0⟩, ⟨60, volQuote 20, volQuote 0⟩,
      ⟨70, volQuote 20, volQuote 0⟩] }

/-- A one-row chain whose call and put quotes are produced by
`generateOptionData`. -/
noncomputable def generatedChain : OptionsChain :=
  { expiration := 0, daysToExpiry := 365, totalStrikes := 1, atmStrike := 100,
    options := [⟨50, generateOptionData .call 50 100 365 0 0 0 0,
      generateOptionData .put 50 100 365 0 0 0 0⟩] }

/-! ### Strike-ladder lemmas -/

/-- Every price tier yields a positive strike interval. -/
lemma getStrikeInterval_pos (price : ℚ) : 0 < getStrikeInterval price := by
  unfold getStrikeInterval
  split_ifs <;> norm_num

/-- C5: for every spot > 0, `generateStrikePrices` returns at most 30
strikes, strictly increasing, every entry positive. -/
theorem generateStrikePrices_invariants (p : ℚ) (hp : 0 < p) :
    (generateStrikePrices p).length ≤ 30 ∧
      (generateStrikePrices p).Sorted (· < ·) ∧
      ∀ x ∈ generateStrikePrices p, 0 < x := by
  have hi : 0 < getStrikeInterval p := getStrikeInterval_pos p
  refine ⟨?_, ?_, ?_⟩
  · simp only [generateStrikePrices]
    simp [List.length_take]
  · simp only [generateStrikePrices]
    have hbase : (List.range (⌈p * 2.0 / getStrikeInterval p⌉ -
        ⌊p * 0.5 / getStrikeInterval p⌋ + 1).toNat).Pairwise (· < ·) :=
      List.pairwise_lt_range _
    have hmap :
        ((List.range (⌈p * 2.0 / getStrikeInterval p⌉ -
            ⌊p * 0.5 / getStrikeInterval p⌋ + 1).toNat).map
          (fun (k : ℕ) => ((⌊p * 0.5 / getStrikeInterval p⌋ + (k : ℤ) : ℤ) : ℚ) *
            getStrikeInterval p)).Pairwise (· < ·) := by
      refine hbase.map _ ?_
      intro a b hab
      have h1 : ((⌊p * 0.5 / getStrikeInterval p⌋ + (a : ℤ) : ℤ) : ℚ) <
          ((⌊p * 0.5 / getStrikeInterval p⌋ + (b : ℤ) : ℤ) : ℚ) := by
        exact_mod_cast add_lt_add_left (by exact_mod_cast hab) _
      exact mul_lt_mul_of_pos_right h1 hi
    exact (hmap.sublist (List.filter_sublist _)).sublist (List.take_sublist _ _)
  · intro x hx
    simp only [generateStrikePrices] at hx
    have hx' := (List.take_sublist _ _).subset hx
    have := (List.mem_filter.mp hx').2
    simpa using this

/-- C10: for every spot > 0 the strike ladder is non-empty, so
`findAtmStrike` (a JS `reduce` with no initial accumulator, which throws
on an empty array) succeeds on it. -/
theorem generateStrikePrices_nonempty_and_findAtmStrike_total
    (p : ℚ) (hp : 0 < p) :
    generateStrikePrices p ≠ [] ∧
      (findAtmStrike (generateStrikePrices p) p).isSome := by
  have hi : 0 < getStrikeInterval p := getStrikeInterval_pos p
  have hne : generateStrikePrices p ≠ [] := by
    have hpos : (0 : ℚ) < p * 2.0 / getStrikeInterval p := by positivity
    have hhi : 0 < ⌈p * 2.0 / getStrikeInterval p⌉ := Int.ceil_pos.mpr hpos
    have hmono : p * 0.5 / getStrikeInterval p ≤ p * 2.0 / getStrikeInterval p := by
      exact (div_le_div_right hi).mpr (by linarith)
    have hlohi : ⌊p * 0.5 / getStrikeInterval p⌋ ≤ ⌈p * 2.0 / getStrikeInterval p⌉ :=
      le_trans (Int.floor_mono hmono) (Int.floor_le_ceil _)
    set lo := ⌊p * 0.5 / getStrikeInterval p⌋ with hlo
    set hi2 := ⌈p * 2.0 / getStrikeInterval p⌉ with hhi2
    have hk : (hi2 - lo).toNat < (hi2 - lo + 1).toNat := by omega
    have hval : ((lo + ((hi2 - lo).toNat : ℤ) : ℤ) : ℚ) = ((hi2 : ℤ) : ℚ) := by
      congr 1
      omega
    have hmem1 : ((hi2 : ℤ) : ℚ) * getStrikeInterval p ∈
        (List.range (hi2 - lo + 1).toNat).map
          (fun (k : ℕ) => ((lo + (k : ℤ) : ℤ) : ℚ) * getStrikeInterval p) := by
      refine List.mem_map.mpr ⟨(hi2 - lo).toNat, List.mem_range.mpr hk, ?_⟩
      rw [hval]
    have hposval : (0 : ℚ) < ((hi2 : ℤ) : ℚ) * getStrikeInterval p := by
      have h2 : (0 : ℚ) < ((hi2 : ℤ) : ℚ) := by exact_mod_cast hhi
      exact mul_pos h2 hi
    have hfne : ((List.range (hi2 - lo + 1).toNat).map
          (fun (k : ℕ) => ((lo + (k : ℤ) : ℤ) : ℚ) * getStrikeInterval p)).filter
          (fun strike => 0 < strike) ≠ [] :=
      List.ne_nil_of_mem (List.mem_filter.mpr ⟨hmem1, by simpa using hposval⟩)
    simp only [generateStrikePrices, ← hlo, ← hhi2]
    rcases hfl : ((List.range (hi2 - lo + 1).toNat).map
          (fun (k : ℕ) => ((lo + (k : ℤ) : ℤ) : ℚ) * getStrikeInterval p)).filter
          (fun strike => 0 < strike) with _ | ⟨a, l⟩
    · exact absurd hfl hfne
    · rw [hfl]
      simp
  refine ⟨hne, ?_⟩
  rcases h : generateStrikePrices p with _ | ⟨a, l⟩
  · exact absurd h hne
  · simp [findAtmStrike]

/-! ### At-the-money selection -/

/-- Invariant of the `reduce` inside `findAtmStrike`: folding the
strict-closer step over `t` starting from `a` either keeps `a` (and `a` is
at least as close as everything in `t`) or lands on a member of `t` that
is strictly closer than `a` and than everything before it, and at least as
close as everything after it. -/
lemma foldl_atm_spec (p : ℚ) :
    ∀ (t : List ℚ) (a : ℚ),
      (t.foldl (fun prev curr =>
          if |curr - p| < |prev - p| then curr else prev) a = a ∧
        ∀ x ∈ t, |a - p| ≤ |x - p|) ∨
      (∃ pre post r,
        t.foldl (fun prev curr =>
          if |curr - p| < |prev - p| then curr else prev) a = r ∧
        t = pre ++ r :: post ∧
        |r - p| < |a - p| ∧
        (∀ x ∈ pre, |r - p| < |x - p|) ∧
        (∀ x ∈ post, |r - p| ≤ |x - p|)) := by
  intro t
  induction t with
  | nil =>
      intro a
      exact Or.inl ⟨rfl, by simp⟩
  | cons c t ih =>
      intro a
      by_cases hc : |c - p| < |a - p|
      · have hstep : (c :: t).foldl (fun prev curr =>
            if |curr - p| < |prev - p| then curr else prev) a =
            t.foldl (fun prev curr =>
              if |curr - p| < |prev - p| then curr else prev) c := by
          simp [List.foldl_cons, if_pos hc]
        rcases ih c with ⟨heq, hmin⟩ | ⟨pre, post, r, hr, heq, hlt, hpre, hpost⟩
        · exact Or.inr ⟨[], t, c, hstep.trans heq, by simp, hc, by simp, hmin⟩
        · refine Or.inr ⟨c :: pre, post, r, hstep.trans hr, by rw [heq]; simp,
            lt_trans hlt hc, ?_, hpost⟩
          intro x hx
          rcases List.mem_cons.mp hx with rfl | hx'
          · exact hlt
          · exact hpre x hx'
      · have hstep : (c :: t).foldl (fun prev curr =>
            if |curr - p| < |prev - p| then curr else prev) a =
            t.foldl (fun prev curr =>
              if |curr - p| < |prev - p| then curr else prev) a := by
          simp [List.foldl_cons, if_neg hc]
        rcases ih a with ⟨heq, hmin⟩ | ⟨pre, post, r, hr, heq, hlt, hpre, hpost⟩
        · refine Or.inl ⟨hstep.trans heq, ?_⟩
          intro x hx
          rcases List.mem_cons.mp hx with rfl | hx'
          · exact not_lt.mp hc
          · exact hmin x hx'
        · refine Or.inr ⟨c :: pre, post, r, hstep.trans hr, by rw [heq]; simp,
            hlt, ?_, hpost⟩
          intro x hx
          rcases List.mem_cons.mp hx with rfl | hx'
          · exact lt_of_lt_of_le hlt (not_lt.mp hc)
          · exact hpre x hx'

/-- C6: for a non-empty strike list, `findAtmStrike` returns a member
that minimizes `|strike - spot|`, and every element occurring before the
returned one is strictly farther from the spot — i.e. ties go to the
first minimizer encountered in traversal order. -/
theorem findAtmStrike_first_minimizer (strikes : List ℚ) (p : ℚ)
    (h : strikes ≠ []) :
    ∃ pre post r,
      findAtmStrike strikes p = some r ∧
      strikes = pre ++ r :: post ∧
      (∀ x ∈ strikes, |r - p| ≤ |x - p|) ∧
      (∀ x ∈ pre, |r - p| < |x - p|) := by
  rcases strikes with _ | ⟨first, rest⟩
  · exact absurd rfl h
  · rcases foldl_atm_spec p rest first with ⟨heq, hmin⟩ |
      ⟨pre, post, r, hr, heq, hlt, hpre, hpost⟩
    · refine ⟨[], rest, first, ?_, by simp, ?_, by simp⟩
      · simp [findAtmStrike, heq]
      · intro x hx
        rcases List.mem_cons.mp hx with rfl | hx'
        · exact le_refl _
        · exact hmin x hx'
    · refine ⟨first :: pre, post, r, ?_, by rw [heq]; simp, ?_, ?_⟩
      · simp [findAtmStrike, hr]
      · intro x hx
        rcases List.mem_cons.mp hx with rfl | hx'
        · exact le_of_lt hlt
        · rw [heq] at hx'
          rcases List.mem_append.mp hx' with hx2 | hx2
          · exact le_of_lt (hpre x hx2)
          · rcases List.mem_cons.mp hx2 with rfl | hx3
            · exact le_refl _
            · exact hpost x hx3
      · intro x hx
        rcases List.mem_cons.mp hx with rfl | hx'
        · exact hlt
        · exact hpre x hx'

/-- Witness for `generateStrikePrices_invariants` at spot 10. -/
theorem generateStrikePrices_invariants_witness :
    (generateStrikePrices 10).length ≤ 30 ∧
      (generateStrikePrices 10).Sorted (· < ·) ∧
      ∀ x ∈ generateStrikePrices 10, 0 < x :=
  generateStrikePrices_invariants 10 (by norm_num)

/-- Witness for `generateStrikePrices_nonempty_and_findAtmStrike_total`
at spot 10. -/
theorem generateStrikePrices_nonempty_and_findAtmStrike_total_witness :
    generateStrikePrices 10 ≠ [] ∧
      (findAtmStrike (generateStrikePrices 10) 10).isSome :=
  generateStrikePrices_nonempty_and_findAtmStrike_total 10 (by norm_num)

/-- Witness for `findAtmStrike_first_minimizer` on the tie scenario of the
spec: spot 175 with candidate strikes 170 and 180. -/
theorem findAtmStrike_first_minimizer_witness :
    ∃ pre post r,
      findAtmStrike [170, 180] 175 = some r ∧
      ([170, 180] : List ℚ) = pre ++ r :: post ∧
      (∀ x ∈ ([170, 180] : List ℚ), |r - 175| ≤ |x - 175|) ∧
      (∀ x ∈ pre, |r - (175 : ℚ)| < |x - 175|) :=
  findAtmStrike_first_minimizer [170, 180] 175 (by simp)

/-! ### Expiration selection -/

/-- Elements of `jsDedup l` come from `l`. -/
lemma mem_of_mem_jsDedup_aux (l : List ℤ) :
    ∀ (acc : List ℤ) (x : ℤ),
      x ∈ l.foldl (fun acc x => if x ∈ acc then acc else acc ++ [x]) acc →
        x ∈ acc ∨ x ∈ l := by
  induction l with
  | nil =>
      intro acc x hx
      exact Or.inl hx
  | cons a t ih =>
      intro acc x hx
      simp only [List.foldl_cons] at hx
      rcases ih _ x hx with hacc | ht
      · by_cases ha : a ∈ acc
        · rw [if_pos ha] at hacc
          exact Or.inl hacc
        · rw [if_neg ha] at hacc
          rcases List.mem_append.mp hacc with h1 | h1
          · exact Or.inl h1
          · simp at h1
            exact Or.inr (by simp [h1])
      · exact Or.inr (List.mem_cons_of_mem a ht)

/-- Elements of `jsDedup l` come from `l`. -/
lemma mem_of_mem_jsDedup {l : List ℤ} {x : ℤ} (hx : x ∈ jsDedup l) : x ∈ l := by
  rcases mem_of_mem_jsDedup_aux l [] x hx with h | h
  · simp at h
  · exact h

/-- C7: for either upstream shape (or none), the expiration selection of
`processOptionsData` returns at most 4 dates, every returned date strictly
beyond `now + 270` days, sorted ascending. -/
theorem selectLeapsExpirations_spec (now : ℤ) (raw : RawOptionsData) :
    (selectLeapsExpirations now raw).length ≤ 4 ∧
      (∀ d ∈ selectLeapsExpirations now raw,
        now + 9 * 30 * 24 * 60 * 60 * 1000 < d) ∧
      (selectLeapsExpirations now raw).Sorted (· ≤ ·) := by
  rcases raw with exps | contracts | _
  · refine ⟨?_, ?_, ?_⟩
    · simp [selectLeapsExpirations, List.length_take]
    · intro d hd
      simp only [selectLeapsExpirations] at hd
      have hd1 := (List.take_sublist _ _).subset hd
      have hd2 := (List.perm_insertionSort (· ≤ ·) _).subset hd1
      have := (List.mem_filter.mp hd2).2
      simpa using this
    · simp only [selectLeapsExpirations]
      exact (List.sorted_insertionSort (· ≤ ·) _).sublist (List.take_sublist _ _)
  · refine ⟨?_, ?_, ?_⟩
    · simp [selectLeapsExpirations, List.length_take]
    · intro d hd
      simp only [selectLeapsExpirations] at hd
      have hd1 := (List.take_sublist _ _).subset hd
      have hd2 := (List.perm_insertionSort (· ≤ ·) _).subset hd1
      have hd3 := mem_of_mem_jsDedup hd2
      have := (List.mem_filter.mp hd3).2
      simpa using this
    · simp only [selectLeapsExpirations]
      exact (List.sorted_insertionSort (· ≤ ·) _).sublist (List.take_sublist _ _)
  · refine ⟨?_, ?_, ?_⟩ <;> simp [selectLeapsExpirations]

/-! ### Bounds for the error-function approximation -/

/-- The quartic `a5 t⁴ + a4 t³ + a3 t² + a2 t + a1` built from the
Abramowitz–Stegun coefficients is positive for every real `t`. -/
lemma asPoly_pos (t : ℝ) :
    0 < 1.061405429 * t ^ 4 - 1.453152027 * t ^ 3 + 1.421413741 * t ^ 2 -
      0.284496736 * t + 0.254829592 := by
  nlinarith [sq_nonneg (t * t - (1453152027 / 2122810858 : ℝ) * t),
    sq_nonneg (t - 0.154), sq_nonneg t, sq_nonneg (t * t)]

/-- On `[0,1]` the quintic `t · (a5 t⁴ + a4 t³ + a3 t² + a2 t + a1)` stays
below `1.5`. -/
lemma asPoly_mul_le (t : ℝ) (h0 : 0 ≤ t) (h1 : t ≤ 1) :
    1.061405429 * t ^ 5 - 1.453152027 * t ^ 4 + 1.421413741 * t ^ 3 -
      0.284496736 * t ^ 2 + 0.254829592 * t ≤ 1.5 := by
  have key1 : 0.254829592 * t - 0.284496736 * t ^ 2 ≤ 0.06 := by
    nlinarith [sq_nonneg (0.254829592 - 2 * 0.284496736 * t)]
  have key2 : t ^ 4 * (1.061405429 * t - 1.453152027) ≤ 0 := by
    apply mul_nonpos_of_nonneg_of_nonpos (by positivity)
    nlinarith
  have key3 : 1.421413741 * t ^ 3 ≤ 1.421413741 := by
    nlinarith [pow_le_one₀ h0 h1 (n := 3)]
  nlinarith [key1, key2, key3]

/-- The approximated error function stays within `[-1, 1]` for every real
input. -/
lemma erf_bounds (x : ℝ) : -1 ≤ erf x ∧ erf x ≤ 1 := by
  simp only [erf]
  set t : ℝ := 1 / (1 + 0.3275911 * |x|) with hts
  set E : ℝ := Real.exp (-(|x| * |x|)) with hEs
  have hax : 0 ≤ |x| := abs_nonneg x
  have hden : (1 : ℝ) ≤ 1 + 0.3275911 * |x| := by nlinarith
  have ht0 : 0 < t := by rw [hts]; positivity
  have ht1 : t ≤ 1 := by
    rw [hts, div_le_one (by linarith)]
    linarith
  have hE0 : 0 < E := Real.exp_pos _
  have hE1 : E ≤ 1 := by
    rw [hEs]
    exact Real.exp_le_one_iff.mpr (by nlinarith)
  clear_value t E
  clear hts hEs hden hax
  have hq : (0 : ℝ) ≤ ((((1.061405429 * t + -1.453152027) * t + 1.421413741) * t +
      -0.284496736) * t + 0.254829592) * t := by
    nlinarith [asPoly_pos t, ht0]
  have hq15 : ((((1.061405429 * t + -1.453152027) * t + 1.421413741) * t +
      -0.284496736) * t + 0.254829592) * t ≤ 1.5 := by
    nlinarith [asPoly_mul_le t ht0.le ht1]
  have hqE0 : (0 : ℝ) ≤ ((((1.061405429 * t + -1.453152027) * t + 1.421413741) * t +
      -0.284496736) * t + 0.254829592) * t * E := mul_nonneg hq hE0.le
  have hqE1 : ((((1.061405429 * t + -1.453152027) * t + 1.421413741) * t +
      -0.284496736) * t + 0.254829592) * t * E ≤ 1.5 := by
    nlinarith [mul_nonneg hq (sub_nonneg.mpr hE1), hq15]
  split_ifs with hx
  · constructor <;> linarith [hqE0, hqE1]
  · constructor <;> linarith [hqE0, hqE1]

/-- `normalCDF` stays within `[0, 1]` for every real input. -/
lemma normalCDF_bounds (x : ℝ) : 0 ≤ normalCDF x ∧ normalCDF x ≤ 1 := by
  have h := erf_bounds (x / Real.sqrt 2)
  simp only [normalCDF]
  exact ⟨by linarith [h.1], by linarith [h.2]⟩

/-- C3: `normalCDF` maps every real into `[0,1]`; consequently, at the
moneyness/time/volatility arguments `generateOptionData` passes to it,
`calculateDelta` lies in `[0,1]` for calls and `[-1,0]` for puts (before
the display-time absolute value). -/
theorem normalCDF_range_and_delta_bounds (x strike spot days r1 : ℝ)
    (hspot : 0 < spot) (hstrike : 0 < strike) (hdays : 1 ≤ days)
    (hr1 : 0 ≤ r1) (hr1le : r1 ≤ 1) :
    (0 ≤ normalCDF x ∧ normalCDF x ≤ 1) ∧
      (0 ≤ calculateDelta .call (strike / spot) (days / 365) (0.25 + r1 * 0.3) ∧
        calculateDelta .call (strike / spot) (days / 365) (0.25 + r1 * 0.3) ≤ 1) ∧
      (-1 ≤ calculateDelta .put (strike / spot) (days / 365) (0.25 + r1 * 0.3) ∧
        calculateDelta .put (strike / spot) (days / 365) (0.25 + r1 * 0.3) ≤ 0) := by
  have hcdf := normalCDF_bounds x
  have hc := normalCDF_bounds
    ((Real.log (1 / (strike / spot)) +
        0.5 * (0.25 + r1 * 0.3) * (0.25 + r1 * 0.3) * (days / 365)) /
      ((0.25 + r1 * 0.3) * Real.sqrt (days / 365)))
  refine ⟨hcdf, ⟨?_, ?_⟩, ⟨?_, ?_⟩⟩ <;>
    simp only [calculateDelta] <;> linarith [hc.1, hc.2]

/-- Witness for `normalCDF_range_and_delta_bounds` at
`x = 0, strike = 100, spot = 100, days = 365, r1 = 0`. -/
theorem normalCDF_range_and_delta_bounds_witness :
    (0 ≤ normalCDF 0 ∧ normalCDF 0 ≤ 1) ∧
      (0 ≤ calculateDelta .call ((100 : ℝ) / 100) ((365 : ℝ) / 365) (0.25 + 0 * 0.3) ∧
        calculateDelta .call ((100 : ℝ) / 100) ((365 : ℝ) / 365) (0.25 + 0 * 0.3) ≤ 1) ∧
      (-1 ≤ calculateDelta .put ((100 : ℝ) / 100) ((365 : ℝ) / 365) (0.25 + 0 * 0.3) ∧
        calculateDelta .put ((100 : ℝ) / 100) ((365 : ℝ) / 365) (0.25 + 0 * 0.3) ≤ 0) :=
  normalCDF_range_and_delta_bounds 0 100 100 365 0 (by norm_num) (by norm_num)
    (by norm_num) (by norm_num) (by norm_num)

/-! ### Quote invariants -/

/-- The heuristic time value is non-negative whenever the sampled
volatility is. -/
lemma calculateTimeValue_nonneg (m T v : ℝ) (hv : 0 ≤ v) :
    0 ≤ calculateTimeValue m T v := by
  simp only [calculateTimeValue]
  have h1 : 0 ≤ Real.sqrt T := Real.sqrt_nonneg T
  have h2 : 0 ≤ Real.exp (-(|m - 1| * 2)) := (Real.exp_pos _).le
  have h3 : (0 : ℝ) ≤ 0.4 * Real.sqrt T * v * 100 := by positivity
  exact mul_nonneg h3 h2

/-- C1 (amended): `bid ≥ 0.05` and `mid ≤ ask` hold for every quote with
positive spot and strike, `daysToExpiry ≥ 1` and in-band random draws;
`bid ≤ mid` additionally holds whenever the 0.05 bid floor is not binding,
i.e. when `mid · (1 - spreadFraction/2) ≥ 0.05`. -/
theorem generateOptionData_bid_mid_ask_bounds (type : OptionType)
    (strike spot days r1 r2 r3 r4 : ℝ)
    (hspot : 0 < spot) (hstrike : 0 < strike) (hdays : 1 ≤ days)
    (hr1 : 0 ≤ r1) (hr1le : r1 ≤ 1) (hr2 : 0 ≤ r2) (hr2le : r2 ≤ 1) :
    0.05 ≤ (generateOptionData type strike spot days r1 r2 r3 r4).bid ∧
      (generateOptionData type strike spot days r1 r2 r3 r4).midPrice ≤
        (generateOptionData type strike spot days r1 r2 r3 r4).ask ∧
      (0.05 ≤ (generateOptionData type strike spot days r1 r2 r3 r4).midPrice *
          (1 - (0.02 + r2 * 0.03) / 2) →
        (generateOptionData type strike spot days r1 r2 r3 r4).bid ≤
          (generateOptionData type strike spot days r1 r2 r3 r4).midPrice) := by
  have hv : (0 : ℝ) ≤ 0.25 + r1 * 0.3 := by linarith
  have htv : 0 ≤ calculateTimeValue (strike / spot) (days / 365) (0.25 + r1 * 0.3) :=
    calculateTimeValue_nonneg _ _ _ hv
  have hsf : (0 : ℝ) ≤ 0.02 + r2 * 0.03 := by linarith
  cases type <;>
    · simp only [generateOptionData]
      have hintr : (0 : ℝ) ≤ max (spot - strike) 0 ∧ (0 : ℝ) ≤ max (strike - spot) 0 :=
        ⟨le_max_right _ _, le_max_right _ _⟩
      refine ⟨le_max_right _ _, ?_, ?_⟩
      · have hspread : 0 ≤ (max (spot - strike) 0 +
              calculateTimeValue (strike / spot) (days / 365) (0.25 + r1 * 0.3)) *
              (0.02 + r2 * 0.03) ∧
            0 ≤ (max (strike - spot) 0 +
              calculateTimeValue (strike / spot) (days / 365) (0.25 + r1 * 0.3)) *
              (0.02 + r2 * 0.03) :=
          ⟨mul_nonneg (by linarith [hintr.1]) hsf, mul_nonneg (by linarith [hintr.2]) hsf⟩
        linarith [hspread.1, hspread.2]
      · intro hfloor
        have hspread : 0 ≤ (max (spot - strike) 0 +
              calculateTimeValue (strike / spot) (days / 365) (0.25 + r1 * 0.3)) *
              (0.02 + r2 * 0.03) ∧
            0 ≤ (max (strike - spot) 0 +
              calculateTimeValue (strike / spot) (days / 365) (0.25 + r1 * 0.3)) *
              (0.02 + r2 * 0.03) :=
          ⟨mul_nonneg (by linarith [hintr.1]) hsf, mul_nonneg (by linarith [hintr.2]) hsf⟩
        refine max_le (by linarith [hspread.1, hspread.2]) (by nlinarith [hspread.1, hspread.2])

/-- Witness for `generateOptionData_bid_mid_ask_bounds` on an at-the-money
call. -/
theorem generateOptionData_bid_mid_ask_bounds_witness :
    0.05 ≤ (generateOptionData .call 100 100 365 (1 / 6) 0 0 0).bid ∧
      (generateOptionData .call 100 100 365 (1 / 6) 0 0 0).midPrice ≤
        (generateOptionData .call 100 100 365 (1 / 6) 0 0 0).ask ∧
      (0.05 ≤ (generateOptionData .call 100 100 365 (1 / 6) 0 0 0).midPrice *
          (1 - (0.02 + 0 * 0.03) / 2) →
        (generateOptionData .call 100 100 365 (1 / 6) 0 0 0).bid ≤
          (generateOptionData .call 100 100 365 (1 / 6) 0 0 0).midPrice) :=
  generateOptionData_bid_mid_ask_bounds .call 100 100 365 (1 / 6) 0 0 0
    (by norm_num) (by norm_num) (by norm_num) (by norm_num) (by norm_num)
    (by norm_num) (by norm_num)

/-- C1 (counterexample): for a deep out-of-the-money call (strike 1000 on
spot 100, volatility pinned to 0.30, spread fraction 0.02) the mid price
falls below the 0.05 bid floor, so `bid ≤ mid` fails. -/
theorem generateOptionData_deep_otm_bid_exceeds_mid :
    ¬ ((generateOptionData .call 1000 100 365 (1 / 6) 0 0 0).bid ≤
      (generateOptionData .call 1000 100 365 (1 / 6) 0 0 0).midPrice) := by
  have h6 : (7 : ℝ) ≤ Real.exp 6 := by nlinarith [Real.add_one_le_exp (6 : ℝ)]
  have hcube : Real.exp 18 = Real.exp 6 ^ 3 := by
    rw [← Real.exp_nat_mul]
    norm_num
  have h18 : (343 : ℝ) ≤ Real.exp 18 := by
    rw [hcube]
    calc (343 : ℝ) = 7 ^ 3 := by norm_num
      _ ≤ Real.exp 6 ^ 3 := pow_le_pow_left (by norm_num) h6 3
  have hexp : Real.exp (-18) < 1 / 240 := by
    rw [Real.exp_neg, inv_eq_one_div]
    exact one_div_lt_one_div_of_lt (by norm_num) (by linarith)
  have hexp0 : 0 < Real.exp (-18 : ℝ) := Real.exp_pos _
  simp only [generateOptionData, calculateTimeValue]
  norm_num [Real.sqrt_one, abs_of_nonneg, max_eq_right]
  intro h
  linarith [hexp]

/-- C2: every quote decomposes exactly as `mid = intrinsic + timeValue`;
in the at-the-money scenario (spot 100, strike 100, 365 days, volatility
pinned to 0.30 by injecting `r1 = 1/6`) the call quote has
`timeValue = 0.4·1·0.30·100·e^0 = 12`, `intrinsic = 0`, `mid = 12`. -/
theorem generateOptionData_mid_eq_intrinsic_plus_time (type : OptionType)
    (strike spot days r1 r2 r3 r4 : ℝ)
    (hspot : 0 < spot) (hstrike : 0 < strike) (hdays : 1 ≤ days) :
    ((generateOptionData type strike spot days r1 r2 r3 r4).midPrice =
      (generateOptionData type strike spot days r1 r2 r3 r4).intrinsicValue +
        (generateOptionData type strike spot days r1 r2 r3 r4).timeValue) ∧
      ((generateOptionData .call 100 100 365 (1 / 6) r2 r3 r4).timeValue = 12 ∧
        (generateOptionData .call 100 100 365 (1 / 6) r2 r3 r4).intrinsicValue = 0 ∧
        (generateOptionData .call 100 100 365 (1 / 6) r2 r3 r4).midPrice = 12) := by
  refine ⟨?_, ?_, ?_, ?_⟩
  · cases type <;> simp [generateOptionData]
  · simp only [generateOptionData, calculateTimeValue]
    norm_num [Real.sqrt_one, Real.exp_zero]
  · simp [generateOptionData]
  · simp only [generateOptionData, calculateTimeValue]
    norm_num [Real.sqrt_one, Real.exp_zero]

/-- Witness for `generateOptionData_mid_eq_intrinsic_plus_time` on the
at-the-money call scenario itself. -/
theorem generateOptionData_mid_eq_intrinsic_plus_time_witness :
    ((generateOptionData .call 100 100 365 (1 / 6) 0 0 0).midPrice =
      (generateOptionData .call 100 100 365 (1 / 6) 0 0 0).intrinsicValue +
        (generateOptionData .call 100 100 365 (1 / 6) 0 0 0).timeValue) ∧
      ((generateOptionData .call 100 100 365 (1 / 6) 0 0 0).timeValue = 12 ∧
        (generateOptionData .call 100 100 365 (1 / 6) 0 0 0).intrinsicValue = 0 ∧
        (generateOptionData .call 100 100 365 (1 / 6) 0 0 0).midPrice = 12) :=
  generateOptionData_mid_eq_intrinsic_plus_time .call 100 100 365 (1 / 6) 0 0 0
    (by norm_num) (by norm_num) (by norm_num)

/-! ### Chain synthesis accepts non-positive days-to-expiry -/

/-- Evaluation of `generateStrikePrices` at spot 100. -/
lemma generateStrikePrices_at_100 :
    generateStrikePrices 100 =
      [50, 60, 70, 80, 90, 100, 110, 120, 130, 140, 150, 160, 170, 180, 190, 200] := by
  norm_num [generateStrikePrices, getStrikeInterval]
  norm_num [show ((16 : ℤ).toNat = 16) from rfl, List.range_succ, List.filter_cons]

/-- When the at-the-money reduction succeeds, `generateLeapsChain` returns
a chain whose scalar fields are as constructed by the source. -/
lemma generateLeapsChain_eq_some (now expiration : ℚ) (rawSpot : Option ℚ)
    (fallbackSpot : ℚ) (sampler : ℚ → OptionType → RandSample) (atm : ℚ)
    (h : findAtmStrike (generateStrikePrices (rawSpot.getD fallbackSpot))
      (rawSpot.getD fallbackSpot) = some atm) :
    ∃ rows,
      generateLeapsChain now expiration rawSpot fallbackSpot sampler =
        some { expiration := expiration
               daysToExpiry := ⌈(expiration - now) / (1000 * 60 * 60 * 24)⌉
               totalStrikes := (generateStrikePrices (rawSpot.getD fallbackSpot)).length
               atmStrike := atm
               options := rows } := by
  unfold generateLeapsChain
  simp only [h]
  exact ⟨_, rfl⟩

/-- C4 (code evaluation): with expiration equal to `now` — so that
`daysToExpiry = ceil(0/1 day) = 0 < 1` — `generateLeapsChain` still
produces a full chain; no validation or `InvalidInput` rejection happens. -/
theorem generateLeapsChain_accepts_nonpositive_daysToExpiry :
    ∃ chain,
      generateLeapsChain 0 0 (some 100) 0 (fun _ _ => ⟨0, 0, 0, 0⟩) = some chain ∧
        chain.daysToExpiry = 0 ∧ chain.totalStrikes = 16 := by
  have hspot : ((some (100 : ℚ)).getD 0) = 100 := rfl
  have hfind : findAtmStrike (generateStrikePrices ((some (100 : ℚ)).getD 0))
      ((some (100 : ℚ)).getD 0) = some 100 := by
    rw [hspot, generateStrikePrices_at_100]
    norm_num [findAtmStrike]
  obtain ⟨rows, hrows⟩ :=
    generateLeapsChain_eq_some 0 0 (some 100) 0 (fun _ _ => ⟨0, 0, 0, 0⟩) 100 hfind
  refine ⟨_, hrows, ?_, ?_⟩
  · show (⌈((0 : ℚ) - 0) / (1000 * 60 * 60 * 24)⌉ : ℤ) = 0
    norm_num
  · show (generateStrikePrices ((some (100 : ℚ)).getD 0)).length = 16
    rw [hspot, generateStrikePrices_at_100]
    rfl

/-! ### Liquidity classification -/

/-- C8 (counterexample): on a chain set with chains of unequal size the
code's chain-weighted average is 105 (`'Excellent'`) while the flat
strike-row mean of the claim is 57.5, which the claim classifies as
`'Good'`. -/
theorem assessOptionsLiquidity_not_flat_mean :
    assessOptionsLiquidity [liqChain1, liqChain2] = "Excellent" ∧
      claimFlatMeanLiquidity [liqChain1, liqChain2] = "Good" := by
  constructor <;>
    norm_num [assessOptionsLiquidity, claimFlatMeanLiquidity, liqChain1, liqChain2,
      volQuote]

/-- Folding `+ f x` over a list starting from `a` computes
`a + (l.map f).sum`. -/
lemma foldl_add_eq_sum {α : Type} (f : α → ℚ) (l : List α) :
    ∀ a : ℚ, l.foldl (fun s x => s + f x) a = a + (l.map f).sum := by
  induction l with
  | nil => intro a; simp
  | cons x t ih =>
      intro a
      simp only [List.foldl_cons, List.map_cons, List.sum_cons, ih]
      ring

/-- Halving each summand halves the sum. -/
lemma sum_map_div_two (os : List ChainRow) :
    (os.map (fun opt => ((opt.call.volume : ℚ) + (opt.put.volume : ℚ)) / 2)).sum =
      (os.map (fun opt => ((opt.call.volume : ℚ) + (opt.put.volume : ℚ)))).sum / 2 := by
  induction os with
  | nil => simp
  | cons x t ih =>
      simp only [List.map_cons, List.sum_cons, ih]
      ring

/-- C8 (amended): `assessOptionsLiquidity` classifies the mean over chains
of each chain's mean of `(call.volume + put.volume)/2` across its rows —
chains weighted equally, not strike rows. -/
theorem assessOptionsLiquidity_eq_chainMeanLiquidity (chains : List OptionsChain)
    (h : ∀ c ∈ chains, c.options ≠ []) :
    assessOptionsLiquidity chains = chainMeanLiquidity chains := by
  have havg : (chains.foldl (fun sum chain =>
        sum + (chain.options.foldl
            (fun s opt => s + ((opt.call.volume : ℚ) + (opt.put.volume : ℚ))) 0) /
          ((chain.options.length : ℚ) * 2)) 0) =
      (chains.map (fun chain =>
        (chain.options.map
            (fun opt => ((opt.call.volume : ℚ) + (opt.put.volume : ℚ)) / 2)).sum /
          (chain.options.length : ℚ))).sum := by
    rw [foldl_add_eq_sum (fun chain =>
      (chain.options.foldl
          (fun s opt => s + ((opt.call.volume : ℚ) + (opt.put.volume : ℚ))) 0) /
        ((chain.options.length : ℚ) * 2)) chains 0, zero_add]
    apply congrArg List.sum
    apply List.map_congr_left
    intro c _
    rw [foldl_add_eq_sum (fun opt => ((opt.call.volume : ℚ) + (opt.put.volume : ℚ)))
      c.options 0, zero_add, sum_map_div_two, div_div]
    ring_nf
  simp only [assessOptionsLiquidity, chainMeanLiquidity, havg]

/-- Witness for `assessOptionsLiquidity_eq_chainMeanLiquidity` on the
two-chain configuration. -/
theorem assessOptionsLiquidity_eq_chainMeanLiquidity_witness :
    assessOptionsLiquidity [liqChain1, liqChain2] =
      chainMeanLiquidity [liqChain1, liqChain2] :=
  assessOptionsLiquidity_eq_chainMeanLiquidity [liqChain1, liqChain2]
    (by
      intro c hc
      rcases List.mem_cons.mp hc with rfl | hc'
      · simp [liqChain1]
      · rcases List.mem_cons.mp hc' with rfl | hc''
        · simp [liqChain2]
        · simp at hc'')

/-! ### Protective puts on synthesized chains -/

/-- The stored delta of every generated quote is an absolute value, hence
non-negative. -/
lemma generateOptionData_delta_nonneg
    (type : OptionType) (strike spot days r1 r2 r3 r4 : ℝ) :
    0 ≤ (generateOptionData type strike spot days r1 r2 r3 r4).delta := by
  cases type <;> simp [generateOptionData, abs_nonneg]

/-- C9: since `generateOptionData` stores `|delta|`, no generated put can
satisfy the `put.delta ≤ -0.10` selector, so `analyzeProtectivePut` always
returns a non-viable result on chains whose put quotes come from
`generateOptionData`. -/
theorem analyzeProtectivePut_never_viable_on_generated_puts
    (currentPrice : ℚ) (chain : OptionsChain) (rest : List OptionsChain)
    (h : ∀ row ∈ chain.options, ∃ k s d r1 r2 r3 r4,
      row.put = generateOptionData .put k s d r1 r2 r3 r4) :
    analyzeProtectivePut currentPrice (chain :: rest) = some { viable := false } := by
  have hfind : chain.options.find? (fun opt =>
      decide (opt.put.delta ≤ -0.10) && decide (-0.20 ≤ opt.put.delta) &&
        decide (opt.strike < currentPrice * 0.9)) = none := by
    apply List.find?_eq_none.mpr
    intro row hrow hp
    rcases h row hrow with ⟨k, s, d, r1, r2, r3, r4, hput⟩
    have hd : 0 ≤ row.put.delta := by
      rw [hput]
      exact generateOptionData_delta_nonneg .put k s d r1 r2 r3 r4
    simp only [Bool.and_eq_true, decide_eq_true_eq] at hp
    linarith [hp.1.1]
  simp only [analyzeProtectivePut, hfind]

/-- Witness for `analyzeProtectivePut_never_viable_on_generated_puts` on a
concrete generated chain. -/
theorem analyzeProtectivePut_never_viable_on_generated_puts_witness :
    analyzeProtectivePut 100 [generatedChain] = some { viable := false } :=
  analyzeProtectivePut_never_viable_on_generated_puts 100 generatedChain []
    (by
      intro row hrow
      simp only [generatedChain, List.mem_singleton] at hrow
      subst hrow
      exact ⟨50, 100, 365, 0, 0, 0, 0, rfl⟩)

end LEAPS
